import Mathlib

/-!
# Verification of the gig-hr-training-intelligence analytics core

Shallow embedding of the repository's scoring/recommendation pipeline
(`models/recommender.py`), the catalog-ingestion schema check
(`tools/ingest_catalog.py`), the clustering labeler (`app.py`,
`perform_clustering`) and the employee-backend selection
(`src/services/employees.py`).

Numeric columns are modelled as rationals (`ℚ`); pandas DataFrames as
lists of records plus, where a claim depends on the schema, an explicit
column list.
-/

namespace GigHR

/-- One employee row as consumed by `recommend` (`emp_row.get("Department","")`
and `emp_row.get("Section","")`; a missing key yields `""`, so the row is
modelled by the two string values themselves).  The `Section` column is
modelled by the field `sect` because `section` is a Lean keyword. -/
structure EmpRow where
  department : String
  sect : String
  deriving DecidableEq, Repr

/-- One row of the history table (columns `Employee Code`, `Training Name`,
`Status`; `recommend` reads only the latter two). -/
structure HistRow where
  employeeCode : String
  trainingName : String
  status : String
  deriving DecidableEq, Repr

/-- One row of the training catalog (the eight required columns of
`training_catalog.csv`).  `Section` is modelled by `sect` (Lean keyword). -/
structure CatRow where
  course : String
  provider : String
  department : String
  sect : String
  level : String
  hours : ℚ
  cost_KWD : ℚ
  skills : String
  deriving DecidableEq, Repr

/-- A catalog table: its column names (for the schema check
`[c for c in CAT_REQ if c not in catalog.columns]`) together with its rows.
The rows carry the eight required fields; they are meaningful when
`columns` contains the required names. -/
structure Catalog where
  columns : List String
  rows : List CatRow
  deriving DecidableEq, Repr

/-- A catalog row extended with the three signal columns added by
`build_signals` (`CompletionRate`, `Popularity`, `CostEfficiency`). -/
structure SigRow where
  row : CatRow
  completionRate : ℚ
  popularity : ℚ
  costEfficiency : ℚ
  deriving DecidableEq, Repr

/-- One output row of `recommend`: the column selection
`["Course","Provider","Department","Section","Level","Hours","Cost_KWD",
"Skills","CompletionRate","CostEfficiency","Popularity","score"]`
(the intermediate `match_boost` column is dropped). -/
structure OutRow where
  course : String
  provider : String
  department : String
  sect : String
  level : String
  hours : ℚ
  cost_KWD : ℚ
  skills : String
  completionRate : ℚ
  costEfficiency : ℚ
  popularity : ℚ
  score : ℚ
  deriving DecidableEq, Repr

/-- Weight `W_COMPLETION = 0.50`. -/
def W_COMPLETION : ℚ := 1/2

/-- Weight `W_COST_EFF = 0.35`. -/
def W_COST_EFF : ℚ := 7/20

/-- Weight `W_POPULAR = 0.15`. -/
def W_POPULAR : ℚ := 3/20

/-- Boost `BOOST_DEPT = 2.0`. -/
def BOOST_DEPT : ℚ := 2

/-- Boost `BOOST_SECT = 1.5`. -/
def BOOST_SECT : ℚ := 3/2

/-- Required catalog columns `CAT_REQ`. -/
def CAT_REQ : List String :=
  ["Course","Provider","Department","Section","Level","Hours","Cost_KWD","Skills"]

/-- Value of `history.groupby("Training Name").size()` at course `c`:
the number of history rows whose `Training Name` equals `c`. -/
def takenCount (hist : List HistRow) (c : String) : ℕ :=
  (hist.filter (fun h => h.trainingName = c)).length

/-- Value of `history[history["Status"].eq("Completed")].groupby("Training Name").size()`
at course `c` (with the `fillna(0)` applied by the `concat` step): restrict
to the `Completed` rows, then count those whose `Training Name` is `c`. -/
def doneCount (hist : List HistRow) (c : String) : ℕ :=
  ((hist.filter (fun h => h.status = "Completed")).filter
    (fun h => h.trainingName = c)).length

/-- Signal `CompletionRate` for course `c`: `done / taken` per course; a catalog
course never taken gets `NaN` from the left merge, turned into `0` by
`fillna`.  (`taken` is never `0` for a course present in the history, so the
`replace(0, pd.NA)` guard coincides with the `taken = 0` branch here.) -/
def completionRateOf (hist : List HistRow) (c : String) : ℚ :=
  if takenCount hist c = 0 then 0
  else (doneCount hist c : ℚ) / (takenCount hist c : ℚ)

/-- Signal `Popularity` for course `c`: `taken / max(1, taken.sum())`.  The sum of
the per-course group sizes is the number of history rows.  A course absent
from the history gets `NaN` from the merge, turned into `0` by `fillna`. -/
def popularityOf (hist : List HistRow) (c : String) : ℚ :=
  if takenCount hist c = 0 then 0
  else (takenCount hist c : ℚ) / (max 1 hist.length : ℕ)

/-- Value of `cat["Cost_KWD"].astype(float).clip(lower=0)` for one row. -/
def clippedCost (r : CatRow) : ℚ := max r.cost_KWD 0

/-- Maximum `cost.max()` over the catalog (`0` for an empty catalog, in which case
the `cost.max() > 0` test below is false, as it is for the pandas `NaN`). -/
def maxCost (catalog : List CatRow) : ℚ :=
  (catalog.map clippedCost).foldr max 0

/-- Signal `CostEfficiency`: `1 - (cost / cost.max()) if cost.max() > 0 else 0.0`. -/
def costEfficiencyOf (catalog : List CatRow) (r : CatRow) : ℚ :=
  if 0 < maxCost catalog then 1 - clippedCost r / maxCost catalog else 0

/-- Function `build_signals(catalog, history)`: adds `CompletionRate`, `Popularity`
and `CostEfficiency` to every catalog row.  When the history is `None` or
empty both usage signals are set to `0.0` directly. -/
def build_signals (catalog : List CatRow) (history : Option (List HistRow)) :
    List SigRow :=
  match history with
  | some hist =>
    if hist.isEmpty then
      catalog.map (fun r => ⟨r, 0, 0, costEfficiencyOf catalog r⟩)
    else
      catalog.map (fun r =>
        ⟨r, completionRateOf hist r.course, popularityOf hist r.course,
          costEfficiencyOf catalog r⟩)
  | none => catalog.map (fun r => ⟨r, 0, 0, costEfficiencyOf catalog r⟩)

/-- Column `match_boost` of one (signal-extended) catalog row for one employee:
`BOOST_DEPT*(df["Department"]==dept) + BOOST_SECT*(df["Section"]==sect)`. -/
def matchBoost (emp : EmpRow) (dept sect : String) : ℚ :=
  (if dept = emp.department then BOOST_DEPT else 0) +
  (if sect = emp.sect then BOOST_SECT else 0)

/-- The output row built from a signal row and its computed score
(the final column selection of `recommend`). -/
def toOut (s : SigRow) (score : ℚ) : OutRow :=
  { course := s.row.course, provider := s.row.provider,
    department := s.row.department, sect := s.row.sect,
    level := s.row.level, hours := s.row.hours, cost_KWD := s.row.cost_KWD,
    skills := s.row.skills, completionRate := s.completionRate,
    costEfficiency := s.costEfficiency, popularity := s.popularity,
    score := score }

/-- The score of one row:
`0.50*CompletionRate + 0.35*CostEfficiency + 0.15*Popularity + match_boost`. -/
def scoreOf (emp : EmpRow) (s : SigRow) : ℚ :=
  W_COMPLETION * s.completionRate + W_COST_EFF * s.costEfficiency +
    W_POPULAR * s.popularity + matchBoost emp s.row.department s.row.sect

/-- Ascending comparison by score, the order underlying
`sort_values("score")`. -/
def leScore (a b : OutRow) : Prop := a.score ≤ b.score

instance : DecidableRel leScore := fun a b => inferInstanceAs (Decidable (a.score ≤ b.score))

instance : IsTotal OutRow leScore := ⟨fun a b => le_total a.score b.score⟩

instance : IsTrans OutRow leScore := ⟨fun _ _ _ h1 h2 => le_trans h1 h2⟩

/-- Sort `df.sort_values("score", ascending=False)`.  pandas (`nargsort`) argsorts
the column ascending and then reverses the permutation for
`ascending=False`; numpy's default `quicksort` (introsort) coincides with a
stable insertion sort on small inputs (below its 16-element partition
cutoff), so the ascending pass is modelled by a stable ascending insertion
sort.  Consequence faithful to the library: rows with equal score come out
in reversed input order. -/
def sortValuesDesc (l : List OutRow) : List OutRow :=
  (List.insertionSort leScore l).reverse

/-- Head `df.head(n)`, i.e. `df.iloc[:n]`: the first `n` rows for `n ≥ 0`, and
all rows but the last `|n|` for negative `n` (Python slice semantics). -/
def pandasHead {α : Type} (n : Int) (l : List α) : List α :=
  if 0 ≤ n then l.take n.toNat else l.take (l.length - (-n).toNat)

/-- The underlying rows of an optional history table (`None` behaves as an
empty table everywhere in `recommend`). -/
def histRows : Option (List HistRow) → List HistRow
  | some hist => hist
  | none => []

/-- List form of `taken = set(history["Training Name"].unique()) if history is not None
and not history.empty else set()`, as the (first-occurrence) list of
distinct training names; membership in it is set membership. -/
def takenList (history : Option (List HistRow)) : List String :=
  match history with
  | some hist => if hist.isEmpty then [] else (hist.map (·.trainingName)).dedup
  | none => []

/-- The body of `recommend` after the schema check and before sorting:
`df = cat[~cat["Course"].isin(taken)].copy()`, the `match_boost` and
`score` columns, and the final column selection. -/
def scoredRows (emp : EmpRow) (history : Option (List HistRow))
    (catalog : List CatRow) : List OutRow :=
  ((build_signals catalog history).filter
      (fun s => s.row.course ∉ takenList history)).map
    (fun s => toOut s (scoreOf emp s))

/-- Function `recommend(emp_row, history, catalog, topn)`.  The schema check raises
`ValueError(f"training_catalog.csv missing: {miss}")`, modelled by the
`Except.error` carrying the missing-column list; no other failure exists in
the function (in particular `topn` is never validated). -/
def recommend (emp : EmpRow) (history : Option (List HistRow))
    (catalog : Catalog) (topn : Int) : Except (List String) (List OutRow) :=
  let miss := CAT_REQ.filter (fun c => c ∉ catalog.columns)
  if miss ≠ [] then .error miss
  else .ok (pandasHead topn (sortValuesDesc (scoredRows emp history catalog.rows)))

/-! ## `tools/ingest_catalog.py` -/

/-- Required columns `REQ` of `tools/ingest_catalog.py` (same eight names as `CAT_REQ`). -/
def REQ : List String :=
  ["Course","Provider","Department","Section","Level","Hours","Cost_KWD","Skills"]

/-- The header-renaming `mapping` dictionary of `normalize`. -/
def headerMapping : List (String × String) :=
  [("Course Name","Course"),("Title","Course"),("Provider Name","Provider"),
   ("Dept","Department"),("Dept.","Department"),("Sec","Section"),
   ("Duration","Hours"),("Cost (KWD)","Cost_KWD"),("Cost","Cost_KWD")]

/-- Rename step `df.rename(columns={k:v for k,v in mapping.items() if k in df.columns})`
applied to one column name (renaming a key absent from the table is a
no-op, so the `if k in df.columns` filter does not change the result). -/
def renameColumn (c : String) : String := (headerMapping.lookup c).getD c

/-- The schema part of `normalize` in `tools/ingest_catalog.py`: rename the
headers, then `sys.exit` (modelled by `Except.error`) with the full list of
missing required columns if any is absent; otherwise the frame restricted
to the required columns (`df[REQ]`) is returned.  The per-cell value
coercions of the success path (`to_numeric`, `str.title`, the skills
delimiter) act on row values only and happen after the check; they are not
needed by any claim and are not modelled. -/
def normalize (cols : List String) : Except (List String) (List String) :=
  let cols2 := cols.map renameColumn
  let miss := REQ.filter (fun c => c ∉ cols2)
  if miss ≠ [] then .error miss else .ok REQ

/-! ## `app.py`: `perform_clustering` -/

/-- One raw training record as aggregated by `perform_clustering`. -/
structure TrainRec where
  employee_id : String
  employee_name : String
  department : String
  training_course : String
  score : ℚ
  status : String
  deriving DecidableEq, Repr

/-- One aggregated employee row (the `employee_metrics` frame columns). -/
structure EmployeeMetrics where
  employee_id : String
  employee_name : String
  department : String
  avg_score : ℚ
  total_trainings : ℕ
  completed_trainings : ℕ
  deriving DecidableEq, Repr

/-- The groupby key of `perform_clustering`:
`[employee_id, employee_name, department]`. -/
def keyOf (r : TrainRec) : String × String × String :=
  (r.employee_id, r.employee_name, r.department)

/-- The aggregation step of `perform_clustering`: one `EmployeeMetrics` row
per distinct key, with mean score, record count, and count of
rows with status `Completed`.  (pandas emits the groups sorted by key; the group
keys are modelled in first-occurrence order, which affects no property
proved below — every statement is about the multiset of rows or about a
single row.) -/
def aggregateMetrics (df : List TrainRec) : List EmployeeMetrics :=
  ((df.map keyOf).dedup).map (fun k =>
    let grp := df.filter (fun r => keyOf r = k)
    { employee_id := k.1, employee_name := k.2.1, department := k.2.2,
      avg_score := (grp.map (fun r => r.score)).sum / (grp.length : ℚ),
      total_trainings := grp.length,
      completed_trainings := (grp.filter (fun r => r.status = "Completed")).length })

/-- Dictionary `cluster_labels` mapping 0 to High Performer, 1 to Average
Performer, 2 to Needs Improvement: the fixed index-to-label map. -/
def CLUSTER_LABELS : Fin 3 → String := fun i =>
  if i = 0 then "High Performer"
  else if i = 1 then "Average Performer"
  else "Needs Improvement"

/-- Function `perform_clustering(df)`.  The `StandardScaler` + `KMeans(n_clusters=3,
random_state=42, n_init=10)` grouping is an external floating-point,
seeded-randomized library call; it is modelled by the explicit
cluster-assignment argument `assign` (whatever indices in `{0,1,2}` the
library returns for the metric rows).  The labeling step — the subject of
the claims — is modelled exactly: each row's `performance_category` is the
fixed dictionary applied to its cluster index. -/
def perform_clustering (df : List TrainRec)
    (assign : EmployeeMetrics → Fin 3) : List (EmployeeMetrics × String) :=
  (aggregateMetrics df).map (fun m => (m, CLUSTER_LABELS (assign m)))

/-- The mean `avg_score` of the metric rows assigned to cluster `i`. -/
def clusterMeanScore (ms : List EmployeeMetrics)
    (assign : EmployeeMetrics → Fin 3) (i : Fin 3) : ℚ :=
  let g := ms.filter (fun m => assign m = i)
  (g.map (fun m => m.avg_score)).sum / (g.length : ℚ)

/-! ## `src/services/employees.py` -/

/-- Function `list_employees()`.  `BACKEND` (the lowered `DATA_BACKEND` environment
value) is the `backend` argument; the remote `load_employees_supabase()`
call is modelled by `remote` — `Except.error` when it raises, `Except.ok`
with the loaded rows otherwise; `load_employees_csv()` is the `localCsv`
rows.  The function is total: no error reaches the caller. -/
def list_employees {α : Type} (backend : String)
    (remote : Except Unit (List α)) (localCsv : List α) : List α :=
  if backend = "supabase" then
    match remote with
    | .ok df => if df.isEmpty then localCsv else df
    | .error _ => localCsv
  else localCsv

/-! ## Concrete tables for witnesses and counterexamples -/

/-- An employee in department `Claims`, section `Motor` (matches `rowA`). -/
def empD : EmpRow := ⟨"Claims", "Motor"⟩

/-- An employee matching no catalog row below. -/
def empN : EmpRow := ⟨"HR", "Payroll"⟩

def rowA : CatRow := ⟨"Course A", "ProvA", "Claims", "Motor", "Basic", 10, 100, "skills"⟩

def rowB : CatRow := ⟨"Course B", "ProvB", "IT", "Cyber", "Basic", 10, 100, "skills"⟩

def rowC : CatRow := ⟨"Course C", "ProvC", "IT", "Cyber", "Basic", 10, 100, "skills"⟩

/-- Catalog with all required columns and rows `A`, `B`. -/
def catAB : Catalog := ⟨CAT_REQ, [rowA, rowB]⟩

/-- Catalog with all required columns and rows `B`, `C` (two rows with equal
cost and, for `empN`, equal score). -/
def catBC : Catalog := ⟨CAT_REQ, [rowB, rowC]⟩

/-- A catalog table missing six of the eight required columns. -/
def catMiss : Catalog := ⟨["Course", "Provider"], []⟩

/-- A one-row history: employee `E1` completed `Course B`. -/
def histB : List HistRow := [⟨"E1", "Course B", "Completed"⟩]

/-- The output row of `rowA` for `empD` with an empty history: both usage
signals are `0`, `CostEfficiency = 1 - 100/100 = 0`, `score = 2.0 + 1.5`. -/
def oA : OutRow :=
  ⟨"Course A", "ProvA", "Claims", "Motor", "Basic", 10, 100, "skills", 0, 0, 0, 7/2⟩

/-- The output row of `rowB` for a non-matching employee, empty history. -/
def oB : OutRow :=
  ⟨"Course B", "ProvB", "IT", "Cyber", "Basic", 10, 100, "skills", 0, 0, 0, 0⟩

/-- The output row of `rowC` for a non-matching employee, empty history. -/
def oC : OutRow :=
  ⟨"Course C", "ProvC", "IT", "Cyber", "Basic", 10, 100, "skills", 0, 0, 0, 0⟩

/-- Three training records, one per employee, with mean scores
`100`, `50`, `70`. -/
def recsC : List TrainRec :=
  [⟨"E1", "N1", "DeptA", "Course X", 100, "Completed"⟩,
   ⟨"E2", "N2", "DeptA", "Course X", 50, "Completed"⟩,
   ⟨"E3", "N3", "DeptA", "Course X", 70, "Completed"⟩]

/-- A cluster assignment (as `KMeans.fit_predict` may legitimately return:
its indices carry no meaning): the top scorer `E1` lands in cluster `2`,
the bottom scorer `E2` in cluster `0`, `E3` in cluster `1`. -/
def assignC : EmployeeMetrics → Fin 3 := fun m =>
  if m.employee_id = "E1" then 2 else if m.employee_id = "E3" then 1 else 0

/-- The aggregated metrics row of `E1` in `recsC`. -/
def m1C : EmployeeMetrics := ⟨"E1", "N1", "DeptA", 100, 1, 1⟩

/-- The signal row of `rowA` in `catAB` with no history: both usage signals
`0`, and `CostEfficiency = 1 - 100/100 = 0`. -/
def sigA : SigRow := ⟨rowA, 0, 0, 0⟩

/-! ## Helper lemmas -/

theorem mem_sortValuesDesc {a : OutRow} {l : List OutRow} :
    a ∈ sortValuesDesc l ↔ a ∈ l := by
  simp [sortValuesDesc, (List.perm_insertionSort leScore l).mem_iff]

theorem pandasHead_sublist {α : Type} (n : Int) (l : List α) :
    (pandasHead n l).Sublist l := by
  unfold pandasHead
  split <;> exact List.take_sublist _ _

theorem recommend_ok (emp : EmpRow) (history : Option (List HistRow))
    (catalog : Catalog) (topn : Int) (out : List OutRow)
    (hok : recommend emp history catalog topn = .ok out) :
    out = pandasHead topn (sortValuesDesc (scoredRows emp history catalog.rows)) := by
  simp only [recommend] at hok
  split at hok
  · exact absurd hok (by simp)
  · simpa using hok.symm

theorem mem_scoredRows {r : OutRow} {emp : EmpRow}
    {history : Option (List HistRow)} {catalog : List CatRow} :
    r ∈ scoredRows emp history catalog ↔
      ∃ s, (s ∈ build_signals catalog history ∧ s.row.course ∉ takenList history) ∧
        r = toOut s (scoreOf emp s) := by
  constructor
  · intro h
    obtain ⟨s, hs, rfl⟩ := List.mem_map.mp h
    have h2 := List.mem_filter.mp hs
    exact ⟨s, ⟨h2.1, by simpa using h2.2⟩, rfl⟩
  · rintro ⟨s, ⟨h1, h2⟩, rfl⟩
    exact List.mem_map_of_mem _ (List.mem_filter.mpr ⟨h1, by simpa using h2⟩)

theorem mem_of_recommend_ok {emp : EmpRow} {history : Option (List HistRow)}
    {catalog : Catalog} {topn : Int} {out : List OutRow} {r : OutRow}
    (hok : recommend emp history catalog topn = .ok out) (hr : r ∈ out) :
    ∃ s, (s ∈ build_signals catalog.rows history ∧
        s.row.course ∉ takenList history) ∧ r = toOut s (scoreOf emp s) := by
  rw [recommend_ok _ _ _ _ _ hok] at hr
  exact mem_scoredRows.mp
    (mem_sortValuesDesc.mp ((pandasHead_sublist _ _).subset hr))

theorem score_formula {emp : EmpRow} {history : Option (List HistRow)}
    {catalog : Catalog} {topn : Int} {out : List OutRow} {r : OutRow}
    (hok : recommend emp history catalog topn = .ok out) (hr : r ∈ out) :
    r.score = W_COMPLETION * r.completionRate + W_COST_EFF * r.costEfficiency +
      W_POPULAR * r.popularity + matchBoost emp r.department r.sect := by
  obtain ⟨s, -, rfl⟩ := mem_of_recommend_ok hok hr
  simp [toOut, scoreOf]

theorem le_foldr_max {x : ℚ} {l : List ℚ} (hx : x ∈ l) : x ≤ l.foldr max 0 := by
  induction l with
  | nil => cases hx
  | cons a t ih =>
      rcases List.mem_cons.mp hx with rfl | h
      · exact le_max_left _ _
      · exact le_trans (ih h) (le_max_right _ _)

theorem doneCount_le_takenCount (hist : List HistRow) (c : String) :
    doneCount hist c ≤ takenCount hist c :=
  List.Sublist.length_le (List.Sublist.filter _ (List.filter_sublist hist))

theorem takenCount_le_length (hist : List HistRow) (c : String) :
    takenCount hist c ≤ hist.length :=
  List.length_filter_le _ _

theorem completionRateOf_bounds (hist : List HistRow) (c : String) :
    0 ≤ completionRateOf hist c ∧ completionRateOf hist c ≤ 1 := by
  unfold completionRateOf
  split
  · simp
  · next hne =>
      have hpos : (0 : ℚ) < (takenCount hist c : ℚ) := by
        exact_mod_cast Nat.pos_of_ne_zero hne
      constructor
      · positivity
      · rw [div_le_one hpos]
        exact_mod_cast doneCount_le_takenCount hist c

theorem popularityOf_bounds (hist : List HistRow) (c : String) :
    0 ≤ popularityOf hist c ∧ popularityOf hist c ≤ 1 := by
  unfold popularityOf
  split
  · simp
  · have hpos : (0 : ℚ) < ((max 1 hist.length : ℕ) : ℚ) := by
      exact_mod_cast Nat.lt_of_lt_of_le Nat.one_pos (le_max_left 1 hist.length)
    constructor
    · positivity
    · rw [div_le_one hpos]
      exact_mod_cast le_trans (takenCount_le_length hist c) (le_max_right 1 hist.length)

theorem costEfficiencyOf_bounds {catalog : List CatRow} {r : CatRow}
    (hr : r ∈ catalog) :
    0 ≤ costEfficiencyOf catalog r ∧ costEfficiencyOf catalog r ≤ 1 := by
  unfold costEfficiencyOf
  split
  · next hpos =>
      have h0 : (0 : ℚ) ≤ clippedCost r := le_max_right _ _
      have hle : clippedCost r ≤ maxCost catalog :=
        le_foldr_max (List.mem_map_of_mem clippedCost hr)
      have hd1 : clippedCost r / maxCost catalog ≤ 1 := (div_le_one hpos).mpr hle
      have hd0 : 0 ≤ clippedCost r / maxCost catalog := div_nonneg h0 hpos.le
      constructor <;> linarith
  · simp

theorem signal_bounds {catalog : List CatRow} {history : Option (List HistRow)}
    {s : SigRow} (hs : s ∈ build_signals catalog history) :
    (0 ≤ s.completionRate ∧ s.completionRate ≤ 1) ∧
      (0 ≤ s.popularity ∧ s.popularity ≤ 1) ∧
      (0 ≤ s.costEfficiency ∧ s.costEfficiency ≤ 1) := by
  cases history with
  | none =>
      simp only [build_signals] at hs
      obtain ⟨r, hr, rfl⟩ := List.mem_map.mp hs
      exact ⟨by simp, by simp, costEfficiencyOf_bounds hr⟩
  | some hist =>
      simp only [build_signals] at hs
      split at hs
      · obtain ⟨r, hr, rfl⟩ := List.mem_map.mp hs
        exact ⟨by simp, by simp, costEfficiencyOf_bounds hr⟩
      · obtain ⟨r, hr, rfl⟩ := List.mem_map.mp hs
        exact ⟨completionRateOf_bounds hist r.course,
          popularityOf_bounds hist r.course, costEfficiencyOf_bounds hr⟩

theorem mem_build_signals {catalog : List CatRow} {history : Option (List HistRow)}
    {s : SigRow} (hs : s ∈ build_signals catalog history) :
    s.row ∈ catalog ∧ s.costEfficiency = costEfficiencyOf catalog s.row ∧
      ((histRows history).isEmpty → s.completionRate = 0 ∧ s.popularity = 0) ∧
      (¬ (histRows history).isEmpty →
        s.completionRate = completionRateOf (histRows history) s.row.course ∧
          s.popularity = popularityOf (histRows history) s.row.course) := by
  cases history with
  | none =>
      simp only [build_signals, histRows] at hs ⊢
      obtain ⟨r, hr, rfl⟩ := List.mem_map.mp hs
      simp [hr]
  | some hist =>
      simp only [build_signals, histRows] at hs ⊢
      split at hs
      · next he =>
          obtain ⟨r, hr, rfl⟩ := List.mem_map.mp hs
          simp [hr, he]
      · next he =>
          obtain ⟨r, hr, rfl⟩ := List.mem_map.mp hs
          simp [hr, he]

theorem sorted_sortValuesDesc (l : List OutRow) :
    (sortValuesDesc l).Pairwise (fun a b => b.score ≤ a.score) := by
  have h := List.sorted_insertionSort leScore l
  rw [sortValuesDesc, List.pairwise_reverse]
  exact h

theorem length_pandasHead_le {α : Type} {n : Int} (hn : 0 ≤ n) (l : List α) :
    ((pandasHead n l).length : Int) ≤ n := by
  unfold pandasHead
  rw [if_pos hn]
  calc ((l.take n.toNat).length : Int) ≤ (n.toNat : Int) := by
        exact_mod_cast List.length_take_le _ _
    _ = n := Int.toNat_of_nonneg hn

theorem recommend_empD_catAB : recommend empD none catAB 8 = .ok [oA, oB] := by
  simp [recommend, CAT_REQ, catAB, empD, rowA, rowB, oA, oB, scoredRows,
    build_signals, costEfficiencyOf, maxCost, clippedCost, takenList, toOut,
    scoreOf, matchBoost, W_COMPLETION, W_COST_EFF, W_POPULAR, BOOST_DEPT,
    BOOST_SECT, sortValuesDesc, leScore, pandasHead, List.insertionSort,
    List.orderedInsert]
  norm_num

theorem recommend_empN_catBC : recommend empN none catBC 8 = .ok [oC, oB] := by
  simp [recommend, CAT_REQ, catBC, empN, rowB, rowC, oB, oC, scoredRows,
    build_signals, costEfficiencyOf, maxCost, clippedCost, takenList, toOut,
    scoreOf, matchBoost, W_COMPLETION, W_COST_EFF, W_POPULAR, BOOST_DEPT,
    BOOST_SECT, sortValuesDesc, leScore, pandasHead, List.insertionSort,
    List.orderedInsert]

theorem recommend_empN_catBC_neg : recommend empN none catBC (-1) = .ok [oC] := by
  simp [recommend, CAT_REQ, catBC, empN, rowB, rowC, oB, oC, scoredRows,
    build_signals, costEfficiencyOf, maxCost, clippedCost, takenList, toOut,
    scoreOf, matchBoost, W_COMPLETION, W_COST_EFF, W_POPULAR, BOOST_DEPT,
    BOOST_SECT, sortValuesDesc, leScore, pandasHead, List.insertionSort,
    List.orderedInsert]

theorem recommend_empN_catBC_zero : recommend empN none catBC 0 = .ok [] := by
  simp [recommend, CAT_REQ, catBC, empN, rowB, rowC, scoredRows,
    build_signals, costEfficiencyOf, maxCost, clippedCost, takenList, toOut,
    scoreOf, matchBoost, W_COMPLETION, W_COST_EFF, W_POPULAR, BOOST_DEPT,
    BOOST_SECT, sortValuesDesc, leScore, pandasHead, List.insertionSort,
    List.orderedInsert]

theorem recommend_empN_histB : recommend empN (some histB) catBC 8 = .ok [oC] := by
  simp [recommend, CAT_REQ, catBC, empN, rowB, rowC, oC, histB, scoredRows,
    build_signals, costEfficiencyOf, maxCost, clippedCost, takenList, toOut,
    scoreOf, matchBoost, completionRateOf, popularityOf, takenCount, doneCount,
    W_COMPLETION, W_COST_EFF, W_POPULAR, BOOST_DEPT, BOOST_SECT,
    sortValuesDesc, leScore, pandasHead, List.insertionSort, List.orderedInsert]

theorem perform_clustering_recsC :
    perform_clustering recsC assignC =
      [(m1C, "Needs Improvement"),
       (⟨"E2", "N2", "DeptA", 50, 1, 1⟩, "High Performer"),
       (⟨"E3", "N3", "DeptA", 70, 1, 1⟩, "Average Performer")] := by
  have hd : (recsC.map keyOf).dedup = recsC.map keyOf :=
    List.dedup_eq_self.mpr (by decide)
  simp only [perform_clustering, aggregateMetrics, hd]
  simp [recsC, keyOf, assignC, m1C, CLUSTER_LABELS]

theorem aggregateMetrics_recsC :
    aggregateMetrics recsC =
      [m1C, ⟨"E2", "N2", "DeptA", 50, 1, 1⟩, ⟨"E3", "N3", "DeptA", 70, 1, 1⟩] := by
  have hd : (recsC.map keyOf).dedup = recsC.map keyOf :=
    List.dedup_eq_self.mpr (by decide)
  simp only [aggregateMetrics, hd]
  simp [recsC, keyOf, m1C]

/-! ## Claims -/

/-- C1, counterexample: `recommend` called with the non-positive `topn = 0`
does not fail with any error condition — it returns a (empty) result
table.  This refutes the claim that `N ≤ 0` fails with an InvalidArgument
condition: the source never validates `topn`. -/
theorem C1_counterexample : recommend empN none catBC 0 = .ok [] :=
  recommend_empN_catBC_zero

/-- C1 (amended): `recommend` performs no validation of the top-N argument.
For a catalog with all required columns and any `topn ≤ 0` it succeeds,
returning `df.head(topn)` of the full ranking: the empty table for
`topn = 0` (and all but the last `|topn|` ranked rows for `topn < 0`). -/
theorem C1_amended_no_topn_validation (emp : EmpRow)
    (history : Option (List HistRow)) (catalog : Catalog) (topn : Int)
    (hcols : CAT_REQ.filter (fun c => c ∉ catalog.columns) = [])
    (hn : topn ≤ 0) :
    recommend emp history catalog topn =
      .ok (pandasHead topn (sortValuesDesc (scoredRows emp history catalog.rows))) ∧
      (topn = 0 →
        pandasHead topn (sortValuesDesc (scoredRows emp history catalog.rows)) =
          ([] : List OutRow)) := by
  constructor
  · simp only [recommend]
    rw [if_neg (fun hne => hne hcols)]
  · rintro rfl
    simp [pandasHead]

/-- C1 witness: the amended statement applied at `topn = -5` on a concrete
valid catalog. -/
theorem C1_witness :
    recommend empN none catBC (-5) =
      .ok (pandasHead (-5) (sortValuesDesc (scoredRows empN none catBC.rows))) ∧
      ((-5 : Int) = 0 →
        pandasHead (-5) (sortValuesDesc (scoredRows empN none catBC.rows)) =
          ([] : List OutRow)) :=
  C1_amended_no_topn_validation empN none catBC (-5) (by decide) (by norm_num)

/-- C2, counterexample: on the two-row catalog `catBC` whose rows tie at
score `0`, `recommend` returns them in REVERSED catalog order (`sort_values`
with `ascending=False` reverses the ascending argsort, so ties are not in
original order), and with `topn = -1` it returns one row, which is not
`≤ -1` rows.  Both refute the claim as stated. -/
theorem C2_counterexample :
    (recommend empN none catBC 8 = .ok [oC, oB] ∧ oB.score = oC.score ∧
      oB ≠ oC ∧ catBC.rows = [rowB, rowC] ∧ oB.course = rowB.course ∧
      oC.course = rowC.course) ∧
    (recommend empN none catBC (-1) = .ok [oC] ∧
      ¬ ((([oC] : List OutRow).length : Int) ≤ -1)) := by
  refine ⟨⟨recommend_empN_catBC, rfl, ?_, rfl, rfl, rfl⟩,
    recommend_empN_catBC_neg, by norm_num⟩
  simp [oB, oC]

/-- C2 (amended): for every input with `topn ≥ 0`, the output of
`recommend` is sorted by score descending (any two rows `i < j` satisfy
`score[i] ≥ score[j]`, hence adjacent rows too) and has at most `topn`
rows.  (Ties are NOT broken by original catalog order: the descending sort
reverses them — see the counterexample.) -/
theorem C2_amended_sorted_bounded (emp : EmpRow)
    (history : Option (List HistRow)) (catalog : Catalog) (topn : Int)
    (out : List OutRow) (hn : 0 ≤ topn)
    (hok : recommend emp history catalog topn = .ok out) :
    out.Pairwise (fun a b => b.score ≤ a.score) ∧ (out.length : Int) ≤ topn := by
  rw [recommend_ok _ _ _ _ _ hok]
  exact ⟨List.Pairwise.sublist (pandasHead_sublist _ _) (sorted_sortValuesDesc _),
    length_pandasHead_le hn _⟩

/-- C2 witness: the amended statement at a concrete input. -/
theorem C2_witness :
    ([oA, oB] : List OutRow).Pairwise (fun a b => b.score ≤ a.score) ∧
      ((([oA, oB] : List OutRow).length : Int)) ≤ 8 :=
  C2_amended_sorted_bounded empD none catAB 8 [oA, oB] (by norm_num)
    recommend_empD_catAB

/-- C3, counterexample: a concrete population of three employees with mean
scores `100`, `50`, `70` and a cluster assignment (as `KMeans` may return —
its indices carry no meaning) placing the best scorer in cluster `2`.
Cluster `2` has the strictly highest mean `avg_score`, yet its member is
labeled `Needs Improvement`, because `perform_clustering` maps cluster
indices to labels through the fixed dictionary `{0: High Performer,
1: Average Performer, 2: Needs Improvement}` without looking at scores. -/
theorem C3_counterexample :
    clusterMeanScore (aggregateMetrics recsC) assignC 2 = 100 ∧
    clusterMeanScore (aggregateMetrics recsC) assignC 0 = 50 ∧
    clusterMeanScore (aggregateMetrics recsC) assignC 1 = 70 ∧
    (50 : ℚ) < 100 ∧ (70 : ℚ) < 100 ∧
    (perform_clustering recsC assignC).map Prod.snd =
      ["Needs Improvement", "High Performer", "Average Performer"] := by
  rw [aggregateMetrics_recsC, perform_clustering_recsC]
  refine ⟨?_, ?_, ?_, by norm_num, by norm_num, by simp⟩ <;>
    simp [clusterMeanScore, assignC, m1C]

/-- C3 (amended): the Cluster Labeler assigns performance labels by the
fixed cluster-index dictionary — cluster `0` is always `High Performer`,
`1` always `Average Performer`, `2` always `Needs Improvement` — regardless
of the groups' mean `avg_score`. -/
theorem C3_amended_fixed_index_labels (df : List TrainRec)
    (assign : EmployeeMetrics → Fin 3) (m : EmployeeMetrics) (lab : String)
    (hmem : (m, lab) ∈ perform_clustering df assign) :
    lab = CLUSTER_LABELS (assign m) ∧
      CLUSTER_LABELS 0 = "High Performer" ∧
      CLUSTER_LABELS 1 = "Average Performer" ∧
      CLUSTER_LABELS 2 = "Needs Improvement" := by
  obtain ⟨m', hm', heq⟩ := List.mem_map.mp hmem
  cases heq
  exact ⟨rfl, by decide, by decide, by decide⟩

/-- C3 witness: the amended statement at the concrete population. -/
theorem C3_witness :
    "Needs Improvement" = CLUSTER_LABELS (assignC m1C) ∧
      CLUSTER_LABELS 0 = "High Performer" ∧
      CLUSTER_LABELS 1 = "Average Performer" ∧
      CLUSTER_LABELS 2 = "Needs Improvement" :=
  C3_amended_fixed_index_labels recsC assignC m1C "Needs Improvement"
    (by rw [perform_clustering_recsC]; simp)

/-- C4: every `CompletionRate`, `Popularity` and `CostEfficiency` value
produced by `build_signals` lies in `[0, 1]`, for every catalog and every
(possibly absent or empty) history; absent data — an absent/empty history,
or a course never taken — yields exactly `0`, never an undefined value (the
embedding is total: no NaN/null exists to leak into the score). -/
theorem C4_signals_unit_interval {catalog : List CatRow}
    {history : Option (List HistRow)} {s : SigRow}
    (hs : s ∈ build_signals catalog history) :
    (0 ≤ s.completionRate ∧ s.completionRate ≤ 1) ∧
      (0 ≤ s.popularity ∧ s.popularity ≤ 1) ∧
      (0 ≤ s.costEfficiency ∧ s.costEfficiency ≤ 1) ∧
      ((histRows history).isEmpty → s.completionRate = 0 ∧ s.popularity = 0) ∧
      (takenCount (histRows history) s.row.course = 0 →
        s.completionRate = 0 ∧ s.popularity = 0) := by
  obtain ⟨h1, h2, h3⟩ := signal_bounds hs
  obtain ⟨-, -, he, hne⟩ := mem_build_signals hs
  refine ⟨h1, h2, h3, he, ?_⟩
  intro h0
  by_cases hemp : (histRows history).isEmpty
  · exact he hemp
  · obtain ⟨hcr, hpop⟩ := hne hemp
    rw [hcr, hpop]
    simp [completionRateOf, popularityOf, h0]

/-- C4 witness: the signal row of `rowA` in a concrete catalog with no
history. -/
theorem C4_witness :
    (0 ≤ sigA.completionRate ∧ sigA.completionRate ≤ 1) ∧
      (0 ≤ sigA.popularity ∧ sigA.popularity ≤ 1) ∧
      (0 ≤ sigA.costEfficiency ∧ sigA.costEfficiency ≤ 1) ∧
      ((histRows none).isEmpty → sigA.completionRate = 0 ∧ sigA.popularity = 0) ∧
      (takenCount (histRows none) sigA.row.course = 0 →
        sigA.completionRate = 0 ∧ sigA.popularity = 0) :=
  C4_signals_unit_interval (show sigA ∈ build_signals catAB.rows none by
    simp [build_signals, catAB, sigA, rowA, rowB, costEfficiencyOf, maxCost,
      clippedCost])

/-- C5: `recommend` never returns an item whose course appears as the
`Training Name` of any row of the history table — in particular, never one
in the given employee's completed-or-taken set, which is a subset of those
rows. -/
theorem C5_excludes_taken_courses {emp : EmpRow}
    {history : Option (List HistRow)} {catalog : Catalog} {topn : Int}
    {out : List OutRow} {r : OutRow}
    (hok : recommend emp history catalog topn = .ok out) (hr : r ∈ out)
    {h : HistRow} (hh : h ∈ histRows history) : h.trainingName ≠ r.course := by
  obtain ⟨s, ⟨hs, hnot⟩, rfl⟩ := mem_of_recommend_ok hok hr
  intro heq
  apply hnot
  cases history with
  | none => cases hh
  | some hist =>
      simp only [histRows] at hh
      have hne : hist.isEmpty = false := by
        cases hist
        · cases hh
        · rfl
      simp only [takenList, hne, Bool.false_eq_true, if_false]
      rw [List.mem_dedup]
      refine List.mem_map.mpr ⟨h, hh, ?_⟩
      simpa [toOut] using heq

/-- C5 witness: with `Course B` taken in the history, the single returned
row is `Course C`, and the history row's name differs from it. -/
theorem C5_witness :
    (⟨"E1", "Course B", "Completed"⟩ : HistRow).trainingName ≠ oC.course :=
  C5_excludes_taken_courses recommend_empN_histB (by simp) (by simp [histRows, histB])

/-- C6: two returned rows with identical signal values where the first
matches both the employee's department and section and the second matches
neither differ in score by exactly `3.5 = BOOST_DEPT + BOOST_SECT`: the
two boosts are additive. -/
theorem C6_orgfit_boost_additive {emp : EmpRow}
    {history : Option (List HistRow)} {catalog : Catalog} {topn : Int}
    {out : List OutRow} {r1 r2 : OutRow}
    (hok : recommend emp history catalog topn = .ok out)
    (h1 : r1 ∈ out) (h2 : r2 ∈ out)
    (hcr : r1.completionRate = r2.completionRate)
    (hce : r1.costEfficiency = r2.costEfficiency)
    (hpop : r1.popularity = r2.popularity)
    (hd1 : r1.department = emp.department) (hs1 : r1.sect = emp.sect)
    (hd2 : r2.department ≠ emp.department) (hs2 : r2.sect ≠ emp.sect) :
    r1.score = r2.score + 7/2 ∧ (7 : ℚ)/2 = BOOST_DEPT + BOOST_SECT := by
  have e1 := score_formula hok h1
  have e2 := score_formula hok h2
  constructor
  · rw [e1, e2, hcr, hce, hpop]
    unfold matchBoost BOOST_DEPT BOOST_SECT
    rw [if_pos hd1, if_pos hs1, if_neg hd2, if_neg hs2]
    ring
  · norm_num [BOOST_DEPT, BOOST_SECT]

/-- C6 witness: in `catAB` for `empD`, `Course A` (matching both) scores
`3.5` and `Course B` (matching neither) scores `0`. -/
theorem C6_witness :
    oA.score = oB.score + 7/2 ∧ (7 : ℚ)/2 = BOOST_DEPT + BOOST_SECT :=
  C6_orgfit_boost_additive recommend_empD_catAB (by simp) (by simp)
    rfl rfl rfl rfl rfl (by decide) (by decide)

/-- C7: a catalog table missing required columns makes `recommend` fail at
once with the error carrying exactly the full list of missing required
columns (the whole result is that error: nothing is computed), and the
ingestion `normalize` likewise exits with the full missing list computed
after header renaming, before any value processing. -/
theorem C7_schema_error (emp : EmpRow) (history : Option (List HistRow))
    (catalog : Catalog) (topn : Int)
    (hmiss : CAT_REQ.filter (fun c => c ∉ catalog.columns) ≠ []) :
    recommend emp history catalog topn =
      .error (CAT_REQ.filter (fun c => c ∉ catalog.columns)) ∧
    (∀ col, col ∈ CAT_REQ.filter (fun c => c ∉ catalog.columns) ↔
      col ∈ CAT_REQ ∧ col ∉ catalog.columns) ∧
    (∀ cols : List String,
      REQ.filter (fun c => c ∉ cols.map renameColumn) ≠ [] →
        normalize cols = .error (REQ.filter (fun c => c ∉ cols.map renameColumn))) := by
  refine ⟨?_, ?_, ?_⟩
  · simp only [recommend]
    rw [if_pos hmiss]
  · intro col
    simp [List.mem_filter]
  · intro cols hne
    simp only [normalize]
    rw [if_pos hne]

/-- C7 witness: a catalog with only `Course` and `Provider` present, and an
ingestion input with only `Title` (renamed to `Course`) and `Provider`. -/
theorem C7_witness :
    recommend empN none catMiss 8 =
      .error ["Department", "Section", "Level", "Hours", "Cost_KWD", "Skills"] ∧
    normalize ["Title", "Provider"] =
      .error ["Department", "Section", "Level", "Hours", "Cost_KWD", "Skills"] := by
  have h := C7_schema_error empN none catMiss 8 (by decide)
  exact ⟨by rw [h.1]; simp [CAT_REQ, catMiss],
    by rw [h.2.2 ["Title", "Provider"] (by decide)]
       simp [REQ, renameColumn, headerMapping, List.lookup]⟩

/-- C8: with an absent or empty history, every signal row has
`CompletionRate = 0` and `Popularity = 0`, and every returned row's score
is exactly `0.35 · CostEfficiency` plus the org-fit boost. -/
theorem C8_empty_history_score {emp : EmpRow}
    {history : Option (List HistRow)} {catalog : Catalog} {topn : Int}
    {out : List OutRow}
    (hemp : history = none ∨ history = some [])
    (hok : recommend emp history catalog topn = .ok out) :
    (∀ s ∈ build_signals catalog.rows history,
        s.completionRate = 0 ∧ s.popularity = 0) ∧
      ∀ r ∈ out, r.completionRate = 0 ∧ r.popularity = 0 ∧
        r.score = W_COST_EFF * r.costEfficiency +
          matchBoost emp r.department r.sect := by
  have hempty : (histRows history).isEmpty := by
    rcases hemp with rfl | rfl <;> rfl
  constructor
  · intro s hs
    exact (mem_build_signals hs).2.2.1 hempty
  · intro r hr
    obtain ⟨s, ⟨hs, -⟩, rfl⟩ := mem_of_recommend_ok hok hr
    obtain ⟨hcr, hpop⟩ := (mem_build_signals hs).2.2.1 hempty
    refine ⟨by simp [toOut, hcr], by simp [toOut, hpop], ?_⟩
    simp only [toOut, scoreOf, hcr, hpop]
    ring

/-- C8 witness: the score of `Course A` for `empD` with no history. -/
theorem C8_witness :
    oA.completionRate = 0 ∧ oA.popularity = 0 ∧
      oA.score = W_COST_EFF * oA.costEfficiency +
        matchBoost empD oA.department oA.sect :=
  (C8_empty_history_score (Or.inl rfl) recommend_empD_catAB).2 oA (by simp)

/-- C9: `recommend` is deterministic — two calls on equal employee rows,
histories, catalogs and `topn` produce equal results (a pure function of
its four inputs; no hidden state exists in the embedding, matching the
source's lack of global mutable state and randomness). -/
theorem C9_deterministic (e1 e2 : EmpRow)
    (h1 h2 : Option (List HistRow)) (c1 c2 : Catalog) (n1 n2 : Int)
    (he : e1 = e2) (hh : h1 = h2) (hc : c1 = c2) (hn : n1 = n2) :
    recommend e1 h1 c1 n1 = recommend e2 h2 c2 n2 := by
  rw [he, hh, hc, hn]

/-- C9 witness: two identical concrete calls. -/
theorem C9_witness : recommend empD none catAB 8 = recommend empD none catAB 8 :=
  C9_deterministic empD empD none none catAB catAB 8 8 rfl rfl rfl rfl

/-- C10: with the `supabase` backend selected, `list_employees` returns the
local CSV rows both when the remote load raises and when it returns an
empty table, and returns the remote rows otherwise; the function is total,
so no error ever reaches the caller. -/
theorem C10_supabase_fallback {α : Type} (remote : Except Unit (List α))
    (localCsv : List α) :
    ((∃ e, remote = .error e) ∨ remote = .ok [] →
      list_employees "supabase" remote localCsv = localCsv) ∧
    (∀ df : List α, remote = .ok df → df.isEmpty = false →
      list_employees "supabase" remote localCsv = df) := by
  constructor
  · rintro (⟨e, rfl⟩ | rfl) <;> simp [list_employees]
  · rintro df rfl hde
    simp [list_employees, hde]

/-- C10 witness: both fallback cases at concrete inputs. -/
theorem C10_witness :
    list_employees "supabase" (Except.error () : Except Unit (List Nat)) [1, 2] =
      [1, 2] ∧
    list_employees "supabase" (Except.ok ([] : List Nat)) [1, 2] = [1, 2] :=
  ⟨(C10_supabase_fallback (Except.error ()) [1, 2]).1 (Or.inl ⟨(), rfl⟩),
   (C10_supabase_fallback (Except.ok []) [1, 2]).1 (Or.inr rfl)⟩

end GigHR
